import Mathlib

/-
Verification development for the StyleTTS2 TPU training script (train_tpu.py).
The definitions below are a shallow embedding of the orchestration logic of
the per-process training function. Python integers are modelled as Nat
(all quantities involved are non-negative), Python float arithmetic on the
accumulated scalar losses is modelled over the rationals, and the external
numerical kernels (sigmoid, the elementwise binary-cross-entropy term, the
neural sub-networks) are abstracted as function parameters, since the spec
treats the numeric runtime as an external collaborator.
-/

namespace StyleTTS2

/- ----------------------------------------------------------------------
Windowed segment sampler (train_tpu.py lines 256-266, validation 418-428).

  mel_len = min(int(mel_input_length.min().item() / 2 - 1), max_len // 2)
  for bib in range(len(mel_input_length)):
      mel_length = int(mel_input_length[bib].item() / 2)
      random_start = np.random.randint(0, mel_length - mel_len)
      en.append(asr[bib, :, random_start:random_start + mel_len])
      p_en.append(p[bib, :, random_start:random_start + mel_len])
      gt.append(mels[bib, :, (random_start * 2):((random_start + mel_len) * 2)])
      y = waves[bib][(random_start * 2) * 300:((random_start + mel_len) * 2) * 300]

Given frame counts of at least 2, the Python truncations int(m/2 - 1) and
int(m/2) agree with Nat division: m / 2 - 1 and m / 2.
---------------------------------------------------------------------- -/

/-- Minimum of a list of Nats; mel_input_length.min() over the batch. -/
def listMin : List Nat → Nat
  | [] => 0
  | x :: xs => xs.foldl Nat.min x

/-- mel_len = min(int(mel_input_length.min().item() / 2 - 1), max_len // 2). -/
def melWindowLen (melInputLengths : List Nat) (maxLen : Nat) : Nat :=
  Nat.min (listMin melInputLengths / 2 - 1) (maxLen / 2)

/-- np.random.randint(0, hi) driven by a uniform seed u: a value in [0, hi). -/
def randint (hi u : Nat) : Nat := u % hi

/-- random_start = np.random.randint(0, mel_length - mel_len) with
mel_length = int(mel_input_length[bib].item() / 2). -/
def randomStart (melInputLen melLen u : Nat) : Nat :=
  randint (melInputLen / 2 - melLen) u

/-- The index ranges of the four extracted windows (en and p_en share the
same half-mel-resolution range [enStart, enStop)). -/
structure Windows where
  enStart : Nat
  enStop : Nat
  melStart : Nat
  melStop : Nat
  wavStart : Nat
  wavStop : Nat
  deriving DecidableEq

/-- The slices taken at lines 262-265 for a sampled start r and length melLen. -/
def sampleWindows (r melLen : Nat) : Windows :=
  { enStart := r
  , enStop := r + melLen
  , melStart := r * 2
  , melStop := (r + melLen) * 2
  , wavStart := r * 2 * 300
  , wavStop := (r + melLen) * 2 * 300 }

/- ----------------------------------------------------------------------
Training step executor (train_tpu.py lines 215-349).

The per-batch control flow is: the text-aligner forward is wrapped in
try/except (lines 225-233; on failure: xm.mark_step(); continue); then
F0_real = F0_real.view(batch_size, -1) (line 284) and
loss_F0_rec = F.smooth_l1_loss(F0_real, F0_fake) (line 286), which raise
outside that try/except when the actual batch is smaller than the
configured batch_size; then the discriminator phase (lines 289-296), the
generator phase (lines 299-347) with the NaN check at lines 339-340 placed
after g_loss.backward() and before the five generator optimizer.step
calls, and finally iters += 1 (line 349).
---------------------------------------------------------------------- -/

/-- The named sub-modules of the model dict that receive optimizer.step calls. -/
inductive ModuleKey
  | text_aligner
  | text_encoder
  | predictor
  | style_encoder
  | decoder
  | msd
  | mpd
  deriving DecidableEq

/-- Which loss a backward() call belongs to. -/
inductive LossTag
  | dLoss
  | gLoss
  deriving DecidableEq

/-- Observable events of one training step, in program order. -/
inductive Ev
  | zeroGrad
  | backward (t : LossTag)
  | stepOpt (m : ModuleKey)
  | markStep
  deriving DecidableEq

/-- The errors that can abort a training step outside the aligner try/except. -/
inductive FatalErr
  | viewSize
  | lossShapes
  | nanLoss
  deriving DecidableEq

/-- Result of one batch: completed, skipped via the aligner except-branch,
or aborted by an uncaught exception. -/
inductive Outcome
  | ok
  | skipped
  | fatal (e : FatalErr)
  deriving DecidableEq

/-- torch Tensor.view(b, -1) on a contiguous (n, w) tensor: requires the
element count n * w to be divisible by b; the result has shape (b, n*w/b). -/
def viewReshape (n w b : Nat) : Except FatalErr (Nat × Nat) :=
  if 0 < b ∧ (n * w) % b = 0 then Except.ok (b, n * w / b)
  else Except.error FatalErr.viewSize

/-- torch broadcasting of one dimension: equal sizes or a size-1 side. -/
def broadcastDim (a c : Nat) : Option Nat :=
  if a = c then some a else if a = 1 then some c else if c = 1 then some a
  else none

/-- Shape discipline of F.smooth_l1_loss on 2-d inputs: the two shapes must
be broadcast-compatible, otherwise the call raises. -/
def smoothL1Shape (s t : Nat × Nat) : Except FatalErr (Nat × Nat) :=
  match broadcastDim s.1 t.1, broadcastDim s.2 t.2 with
  | some r, some c => Except.ok (r, c)
  | _, _ => Except.error FatalErr.lossShapes

/-- Lines 284-286 for an actual batch of n examples whose F0 tensors have w
frames (F0_fake, produced from the same sampled window, has shape (n, w)):
F0_real.view(batch_size, -1) followed by F.smooth_l1_loss(F0_real, F0_fake). -/
def f0RecLossCheck (n w b : Nat) : Except FatalErr (Nat × Nat) :=
  match viewReshape n w b with
  | Except.error e => Except.error e
  | Except.ok s => smoothL1Shape s (n, w)

/-- Discriminator phase, lines 289-296: optimizer.zero_grad(); d_loss
backward; optimizer.step for msd and mpd only; xm.mark_step(). -/
def discPhase : List Ev :=
  [Ev.zeroGrad, Ev.backward LossTag.dLoss,
   Ev.stepOpt ModuleKey.msd, Ev.stepOpt ModuleKey.mpd, Ev.markStep]

/-- The five generator-side optimizer.step calls and the generator-phase
graph commit, lines 342-347. -/
def genSteps : List Ev :=
  [Ev.stepOpt ModuleKey.predictor, Ev.stepOpt ModuleKey.style_encoder,
   Ev.stepOpt ModuleKey.decoder, Ev.stepOpt ModuleKey.text_encoder,
   Ev.stepOpt ModuleKey.text_aligner, Ev.markStep]

/-- One training batch, lines 215-349: the event trace it produces and its
outcome. alignerFails models the except-branch of lines 230-233; n is the
actual number of examples in the batch, w the F0 window frame count, b the
configured batch_size; gLossNaN models torch.isnan(g_loss) at line 339. -/
def trainStep (alignerFails : Bool) (n w b : Nat) (gLossNaN : Bool) :
    List Ev × Outcome :=
  if alignerFails then ([Ev.markStep], Outcome.skipped)
  else
    match f0RecLossCheck n w b with
    | Except.error e => ([], Outcome.fatal e)
    | Except.ok _ =>
      if gLossNaN then
        (discPhase ++ [Ev.zeroGrad, Ev.backward LossTag.gLoss],
         Outcome.fatal FatalErr.nanLoss)
      else
        (discPhase ++ [Ev.zeroGrad, Ev.backward LossTag.gLoss] ++ genSteps,
         Outcome.ok)

/-- The per-batch inputs that drive the modelled control flow. -/
structure TBatch where
  alignerFails : Bool
  n : Nat
  w : Nat
  gLossNaN : Bool
  deriving DecidableEq

/-- The epoch loop over batches, lines 215-349: a fatal outcome propagates
as an uncaught exception and aborts the run; a skipped batch leaves iters
unchanged; a completed batch increments iters by one (line 349). -/
def runBatches (b : Nat) : List TBatch → Nat → Except FatalErr Nat
  | [], iters => Except.ok iters
  | bt :: rest, iters =>
    match (trainStep bt.alignerFails bt.n bt.w b bt.gLossNaN).2 with
    | Outcome.fatal e => Except.error e
    | Outcome.skipped => runBatches b rest iters
    | Outcome.ok => runBatches b rest (iters + 1)

/-- Whether the run aborted with an uncaught exception. -/
def runAborted (r : Except FatalErr Nat) : Bool :=
  match r with
  | Except.error _ => true
  | Except.ok _ => false

/-- Whether one batch completes (is neither skipped nor fatal). -/
def stepCompleted (b : Nat) (bt : TBatch) : Bool :=
  match (trainStep bt.alignerFails bt.n bt.w b bt.gLossNaN).2 with
  | Outcome.ok => true
  | _ => false

/- ----------------------------------------------------------------------
Soft/monotonic alignment selection (train_tpu.py lines 242-245 and 411).

  if bool(random.getrandbits(1)):
      asr = (t_en @ s2s_attn)
  else:
      asr = (t_en @ s2s_attn_mono)

and in validation:  asr = (t_en @ s2s_attn_mono).
---------------------------------------------------------------------- -/

/-- random.getrandbits(1) driven by a uniform seed: the low bit of u. -/
def getrandbits1 (u : Nat) : Bool := u % 2 == 1

/-- Matrix product over inner dimension k, modelling t_en @ attn. -/
def matMulQ (A B : Nat → Nat → ℚ) (k : Nat) : Nat → Nat → ℚ :=
  fun i j => ∑ t ∈ Finset.range k, A i t * B t j

/-- Lines 242-245: the encoder output is multiplied by the soft attention
when the random bit is set, by the monotonic hard path otherwise. -/
def trainAsr (bit : Bool) (t_en soft mono : Nat → Nat → ℚ) (k : Nat) :
    Nat → Nat → ℚ :=
  if bit then matMulQ t_en soft k else matMulQ t_en mono k

/-- Line 411: validation always uses the monotonic hard path. -/
def valAsr (t_en mono : Nat → Nat → ℚ) (k : Nat) : Nat → Nat → ℚ :=
  matMulQ t_en mono k

/- ----------------------------------------------------------------------
Duration / alignment losses of the generator phase
(train_tpu.py lines 303-317).

  for _s2s_pred, _text_input, _text_length in zip(d, (d_gt), input_lengths):
      _s2s_pred = _s2s_pred[:_text_length, :]
      _text_input = _text_input[:_text_length].long()
      _s2s_trg = torch.zeros_like(_s2s_pred)
      for pidx in range(_s2s_trg.shape[0]):
          _s2s_trg[pidx, :_text_input[pidx]] = 1
      _dur_pred = torch.sigmoid(_s2s_pred).sum(axis=1)
      loss_dur += F.l1_loss(_dur_pred[1:_text_length - 1],
                            _text_input[1:_text_length - 1])
      loss_ce += F.binary_cross_entropy_with_logits(_s2s_pred.flatten(),
                            _s2s_trg.flatten())
  loss_ce /= texts.size(0)
  loss_dur /= texts.size(0)

Per example: L is the valid text length, W the frame width of _s2s_pred,
pred its entries, tIn the (already truncated to integer) d_gt entries.
sigma abstracts torch.sigmoid and phi abstracts the elementwise
binary-cross-entropy-with-logits term; both library calls use their default
reduction, which is the MEAN over all reduced elements.
---------------------------------------------------------------------- -/

/-- _dur_pred[i] = torch.sigmoid(_s2s_pred).sum(axis=1) at row i. -/
def durPredAt (sigma : ℚ → ℚ) (pred : Nat → Nat → ℚ) (W i : Nat) : ℚ :=
  ∑ j ∈ Finset.range W, sigma (pred i j)

/-- _s2s_trg entry: 1 on the first _text_input[i] columns of row i, else 0. -/
def s2sTrg (tIn : Nat → Nat) (i j : Nat) : ℚ :=
  if j < tIn i then 1 else 0

/-- Per-example duration loss: F.l1_loss (mean reduction) of the slices
[1:_text_length-1], i.e. the mean over interior rows 1..L-2. -/
def durLossEx (sigma : ℚ → ℚ) (pred : Nat → Nat → ℚ) (tIn : Nat → Nat)
    (L W : Nat) : ℚ :=
  (∑ i ∈ Finset.Ico 1 (L - 1), |durPredAt sigma pred W i - (tIn i : ℚ)|)
    / ((Finset.Ico 1 (L - 1)).card : ℚ)

/-- Per-example alignment BCE: mean of the elementwise term phi over all
L * W entries of the row-sliced logit matrix. -/
def ceLossEx (phi : ℚ → ℚ → ℚ) (pred : Nat → Nat → ℚ) (tIn : Nat → Nat)
    (L W : Nat) : ℚ :=
  (∑ i ∈ Finset.range L, ∑ j ∈ Finset.range W, phi (pred i j) (s2sTrg tIn i j))
    / ((L * W : Nat) : ℚ)

/-- Formalisation of the claim wording for the duration loss: a per-example
loss over the valid text length, normalized by the valid length L. -/
def durLossSpec (sigma : ℚ → ℚ) (pred : Nat → Nat → ℚ) (tIn : Nat → Nat)
    (L W : Nat) : ℚ :=
  (∑ i ∈ Finset.range L, |durPredAt sigma pred W i - (tIn i : ℚ)|) / (L : ℚ)

/-- Formalisation of the claim wording for the alignment BCE: the summed
elementwise terms over the valid region, normalized by the valid length L. -/
def ceLossSpec (phi : ℚ → ℚ → ℚ) (pred : Nat → Nat → ℚ) (tIn : Nat → Nat)
    (L W : Nat) : ℚ :=
  (∑ i ∈ Finset.range L, ∑ j ∈ Finset.range W, phi (pred i j) (s2sTrg tIn i j))
    / (L : ℚ)

/- ----------------------------------------------------------------------
Validation metric reduction (train_tpu.py lines 456-476).

Each worker accumulates loss_test (a float sum over its local validation
batches) and its local batch count iters_test. Then
  loss_test = xm.mesh_reduce('loss_test', loss_test, lambda x: sum(x)/len(x))
gives every worker the average of the per-worker SUMS, and the master
reports  loss_test / max(iters_test, 1)  using its own local iters_test.
---------------------------------------------------------------------- -/

/-- xm.mesh_reduce with lambda x: sum(x) / len(x) over the per-worker
values: every worker receives this same scalar. -/
def meshReduceAvg (xs : List ℚ) : ℚ := xs.sum / (xs.length : ℚ)

/-- The value the master logs and writes to the reporting sink:
the mesh-reduced sum average divided by the master worker's own local
batch count max(iters_test, 1) (lines 472-476). -/
def masterReported (sums : List ℚ) (itersTestMaster : Nat) : ℚ :=
  meshReduceAvg sums / ((max itersTestMaster 1 : Nat) : ℚ)

/-- Formalisation of the claim wording: the average of the per-worker
averages, (1/n) * sum over i of (s_i / c_i). -/
def avgOfWorkerAvgs (sums : List ℚ) (counts : List Nat) : ℚ :=
  ((sums.zip counts).map (fun p => p.1 / (p.2 : ℚ))).sum / (sums.length : ℚ)

/- ----------------------------------------------------------------------
Startup configuration handling (train_tpu.py lines 81-95, 108-134, 145,
161, 177-191, 204).

The symbol block is read first (each access config['symbol'][key] raises
KeyError naming the first missing key, which is caught, printed, and turned
into SystemExit(1)); only then are the train and validation dataloaders
built, the model constructed, the optimizer built, and the pretrained
checkpoint loaded; load_pretrained = config.get('pretrained_model','') != ''
and its else-branch raises Exception('Must have a pretrained!') before the
epoch loop is entered.
---------------------------------------------------------------------- -/

/-- The required vocabulary keys, in the evaluation order of lines 83-87. -/
inductive SymKey
  | symbol
  | pad
  | punctuation
  | letters
  | letters_ipa
  | extend
  deriving DecidableEq

/-- The symbol block of the config; a missing sub-key is None. -/
structure SymbolBlock where
  pad : Option (List Char)
  punctuation : Option (List Char)
  letters : Option (List Char)
  letters_ipa : Option (List Char)
  extend : Option (List Char)
  deriving DecidableEq

/-- The configuration fields the startup claims depend on. -/
structure Config where
  symbol : Option SymbolBlock
  pretrained_model : Option String
  deriving DecidableEq

/-- Lines 82-88: concatenate the five symbol character lists, failing with
the name of the first missing key (the KeyError the except-branch prints). -/
def getSymbols (c : Config) : Except SymKey (List Char) :=
  match c.symbol with
  | none => Except.error SymKey.symbol
  | some sb =>
    match sb.pad with
    | none => Except.error SymKey.pad
    | some padChars =>
      match sb.punctuation with
      | none => Except.error SymKey.punctuation
      | some puncChars =>
        match sb.letters with
        | none => Except.error SymKey.letters
        | some letterChars =>
          match sb.letters_ipa with
          | none => Except.error SymKey.letters_ipa
          | some ipaChars =>
            match sb.extend with
            | none => Except.error SymKey.extend
            | some extendChars =>
              Except.ok (padChars ++ puncChars ++ letterChars ++ ipaChars
                ++ extendChars)

/-- line 145: load_pretrained = config.get('pretrained_model', '') != ''. -/
def load_pretrained (c : Config) : Bool :=
  c.pretrained_model.getD "" != ""

/-- Observable startup milestones, in program order. -/
inductive SetupEv
  | builtTrainLoader
  | builtValLoader
  | builtModel
  | builtOptimizer
  | loadedCheckpoint
  | enteredTrainLoop
  deriving DecidableEq

/-- How startup aborts: SystemExit(1) naming the missing vocabulary key
(line 95), or Exception('Must have a pretrained!') (line 191). -/
inductive SetupErr
  | configExit (code : Nat) (missingKey : SymKey)
  | mustPretrain
  deriving DecidableEq

/-- The startup sequence: the milestones reached, and how it ended. -/
def setup (c : Config) : List SetupEv × Except SetupErr Unit :=
  match getSymbols c with
  | Except.error k => ([], Except.error (SetupErr.configExit 1 k))
  | Except.ok _ =>
    if load_pretrained c then
      ([SetupEv.builtTrainLoader, SetupEv.builtValLoader, SetupEv.builtModel,
        SetupEv.builtOptimizer, SetupEv.loadedCheckpoint,
        SetupEv.enteredTrainLoop], Except.ok ())
    else
      ([SetupEv.builtTrainLoader, SetupEv.builtValLoader, SetupEv.builtModel,
        SetupEv.builtOptimizer], Except.error SetupErr.mustPretrain)

/-- The statement that key k is indeed absent from config c. -/
def missingField (c : Config) : SymKey → Prop
  | SymKey.symbol => c.symbol = none
  | SymKey.pad => ∃ sb, c.symbol = some sb ∧ sb.pad = none
  | SymKey.punctuation => ∃ sb, c.symbol = some sb ∧ sb.punctuation = none
  | SymKey.letters => ∃ sb, c.symbol = some sb ∧ sb.letters = none
  | SymKey.letters_ipa => ∃ sb, c.symbol = some sb ∧ sb.letters_ipa = none
  | SymKey.extend => ∃ sb, c.symbol = some sb ∧ sb.extend = none

/- ------------------------- helper lemmas ------------------------- -/

theorem foldl_min_le (xs : List Nat) :
    ∀ a : Nat, xs.foldl Nat.min a ≤ a ∧ ∀ m ∈ xs, xs.foldl Nat.min a ≤ m := by
  induction xs with
  | nil => intro a; exact ⟨le_refl a, by intro m hm; cases hm⟩
  | cons x xs ih =>
    intro a
    obtain ⟨h1, h2⟩ := ih (Nat.min a x)
    refine ⟨h1.trans (Nat.min_le_left a x), ?_⟩
    intro m hm
    rcases List.mem_cons.mp hm with rfl | hm
    · exact h1.trans (Nat.min_le_right a m)
    · exact h2 m hm

theorem listMin_le {ms : List Nat} {m : Nat} (hm : m ∈ ms) :
    listMin ms ≤ m := by
  cases ms with
  | nil => cases hm
  | cons x xs =>
    rcases List.mem_cons.mp hm with rfl | hmem
    · exact (foldl_min_le xs m).1
    · exact (foldl_min_le xs x).2 m hmem

theorem le_foldl_min (c : Nat) (xs : List Nat) :
    ∀ a : Nat, c ≤ a → (∀ x ∈ xs, c ≤ x) → c ≤ xs.foldl Nat.min a := by
  induction xs with
  | nil => intro a ha _; exact ha
  | cons x xs ih =>
    intro a ha hxs
    exact ih (Nat.min a x)
      (le_min ha (hxs x (List.mem_cons_self x xs)))
      (fun y hy => hxs y (List.mem_cons_of_mem x hy))

theorem le_listMin {ms : List Nat} {c : Nat} (hne : ms ≠ [])
    (h : ∀ x ∈ ms, c ≤ x) : c ≤ listMin ms := by
  cases ms with
  | nil => exact absurd rfl hne
  | cons x xs =>
    exact le_foldl_min c xs x (h x (List.mem_cons_self x xs))
      (fun y hy => h y (List.mem_cons_of_mem x hy))

theorem melWindowLen_succ_le {ms : List Nat} {maxLen m : Nat} (hm : m ∈ ms)
    (h2 : ∀ x ∈ ms, 2 ≤ x) : melWindowLen ms maxLen + 1 ≤ m / 2 := by
  have hne : ms ≠ [] := by intro h; subst h; cases hm
  have hmin2 : 2 ≤ listMin ms := le_listMin hne h2
  have hminm : listMin ms ≤ m := listMin_le hm
  have hdiv : listMin ms / 2 ≤ m / 2 := Nat.div_le_div_right hminm
  have h1 : 1 ≤ listMin ms / 2 := by
    have := Nat.div_le_div_right (c := 2) hmin2
    simpa using this
  have hL : melWindowLen ms maxLen ≤ listMin ms / 2 - 1 :=
    Nat.min_le_left _ _
  omega

theorem randint_filter_card (n v : Nat) (hv : v < n) :
    ((Finset.range n).filter (fun z => randint n z = v)).card = 1 := by
  have hset : (Finset.range n).filter (fun z => randint n z = v) = {v} := by
    ext z
    simp only [Finset.mem_filter, Finset.mem_range, Finset.mem_singleton,
      randint]
    constructor
    · rintro ⟨hz, hmod⟩
      rw [Nat.mod_eq_of_lt hz] at hmod
      exact hmod
    · rintro rfl
      exact ⟨hv, Nat.mod_eq_of_lt hv⟩
  rw [hset]
  exact Finset.card_singleton v

/-- Claim C1: for every example in a batch of frame counts ms (all at least
2), the sampled start offset r = randomStart m (melWindowLen ms maxLen) u
satisfies 0 <= r and r + melWindowLen ms maxLen <= m / 2; it is uniform on
its range (every value below m / 2 - melWindowLen ms maxLen is hit by
exactly one seed residue); and the four extracted windows cover the same
underlying time segment under the fixed scale factors 2 (mel frames) and
600 (raw waveform samples), the mel window having length 2 * mel_len and
the waveform window length 2 * mel_len * 300. -/
theorem sampler_window_bounds_and_scales (ms : List Nat)
    (maxLen m u v : Nat) (hm : m ∈ ms) (h2 : ∀ x ∈ ms, 2 ≤ x)
    (hv : v < m / 2 - melWindowLen ms maxLen) :
    0 ≤ randomStart m (melWindowLen ms maxLen) u
    ∧ randomStart m (melWindowLen ms maxLen) u + melWindowLen ms maxLen
        ≤ m / 2
    ∧ ((Finset.range (m / 2 - melWindowLen ms maxLen)).filter
        (fun z => randomStart m (melWindowLen ms maxLen) z = v)).card = 1
    ∧ (sampleWindows (randomStart m (melWindowLen ms maxLen) u)
        (melWindowLen ms maxLen)).melStart
        = 2 * (sampleWindows (randomStart m (melWindowLen ms maxLen) u)
            (melWindowLen ms maxLen)).enStart
    ∧ (sampleWindows (randomStart m (melWindowLen ms maxLen) u)
        (melWindowLen ms maxLen)).melStop
        = 2 * (sampleWindows (randomStart m (melWindowLen ms maxLen) u)
            (melWindowLen ms maxLen)).enStop
    ∧ (sampleWindows (randomStart m (melWindowLen ms maxLen) u)
        (melWindowLen ms maxLen)).wavStart
        = 600 * (sampleWindows (randomStart m (melWindowLen ms maxLen) u)
            (melWindowLen ms maxLen)).enStart
    ∧ (sampleWindows (randomStart m (melWindowLen ms maxLen) u)
        (melWindowLen ms maxLen)).wavStop
        = 600 * (sampleWindows (randomStart m (melWindowLen ms maxLen) u)
            (melWindowLen ms maxLen)).enStop
    ∧ (sampleWindows (randomStart m (melWindowLen ms maxLen) u)
        (melWindowLen ms maxLen)).melStop
        - (sampleWindows (randomStart m (melWindowLen ms maxLen) u)
            (melWindowLen ms maxLen)).melStart
        = 2 * melWindowLen ms maxLen
    ∧ (sampleWindows (randomStart m (melWindowLen ms maxLen) u)
        (melWindowLen ms maxLen)).wavStop
        - (sampleWindows (randomStart m (melWindowLen ms maxLen) u)
            (melWindowLen ms maxLen)).wavStart
        = 2 * melWindowLen ms maxLen * 300 := by
  have hle : melWindowLen ms maxLen + 1 ≤ m / 2 :=
    melWindowLen_succ_le hm h2
  have hpos : 0 < m / 2 - melWindowLen ms maxLen := by omega
  have hr : randomStart m (melWindowLen ms maxLen) u
      < m / 2 - melWindowLen ms maxLen := Nat.mod_lt u hpos
  refine ⟨Nat.zero_le _, by omega, randint_filter_card _ v hv, ?_, ?_, ?_,
    ?_, ?_, ?_⟩ <;> simp [sampleWindows] <;> omega

theorem sampler_window_bounds_and_scales_witness :
    (10 ∈ [10, 6]
      ∧ (∀ x ∈ [10, 6], 2 ≤ x)
      ∧ 1 < 10 / 2 - melWindowLen [10, 6] 200)
    ∧ (0 ≤ randomStart 10 (melWindowLen [10, 6] 200) 7
      ∧ randomStart 10 (melWindowLen [10, 6] 200) 7
          + melWindowLen [10, 6] 200 ≤ 10 / 2
      ∧ ((Finset.range (10 / 2 - melWindowLen [10, 6] 200)).filter
          (fun z => randomStart 10 (melWindowLen [10, 6] 200) z = 1)).card = 1
      ∧ (sampleWindows (randomStart 10 (melWindowLen [10, 6] 200) 7)
          (melWindowLen [10, 6] 200)).melStart
          = 2 * (sampleWindows (randomStart 10 (melWindowLen [10, 6] 200) 7)
              (melWindowLen [10, 6] 200)).enStart
      ∧ (sampleWindows (randomStart 10 (melWindowLen [10, 6] 200) 7)
          (melWindowLen [10, 6] 200)).melStop
          = 2 * (sampleWindows (randomStart 10 (melWindowLen [10, 6] 200) 7)
              (melWindowLen [10, 6] 200)).enStop
      ∧ (sampleWindows (randomStart 10 (melWindowLen [10, 6] 200) 7)
          (melWindowLen [10, 6] 200)).wavStart
          = 600 * (sampleWindows (randomStart 10 (melWindowLen [10, 6] 200) 7)
              (melWindowLen [10, 6] 200)).enStart
      ∧ (sampleWindows (randomStart 10 (melWindowLen [10, 6] 200) 7)
          (melWindowLen [10, 6] 200)).wavStop
          = 600 * (sampleWindows (randomStart 10 (melWindowLen [10, 6] 200) 7)
              (melWindowLen [10, 6] 200)).enStop
      ∧ (sampleWindows (randomStart 10 (melWindowLen [10, 6] 200) 7)
          (melWindowLen [10, 6] 200)).melStop
          - (sampleWindows (randomStart 10 (melWindowLen [10, 6] 200) 7)
              (melWindowLen [10, 6] 200)).melStart
          = 2 * melWindowLen [10, 6] 200
      ∧ (sampleWindows (randomStart 10 (melWindowLen [10, 6] 200) 7)
          (melWindowLen [10, 6] 200)).wavStop
          - (sampleWindows (randomStart 10 (melWindowLen [10, 6] 200) 7)
              (melWindowLen [10, 6] 200)).wavStart
          = 2 * melWindowLen [10, 6] 200 * 300) :=
  ⟨⟨by decide, by decide, by decide⟩,
    sampler_window_bounds_and_scales [10, 6] 200 10 7 1 (by decide)
      (by decide) (by decide)⟩

theorem trainStep_nan_eq (n w b : Nat) (s : Nat × Nat)
    (h : f0RecLossCheck n w b = Except.ok s) :
    trainStep false n w b true
      = (discPhase ++ [Ev.zeroGrad, Ev.backward LossTag.gLoss],
         Outcome.fatal FatalErr.nanLoss) := by
  simp [trainStep, h]

theorem runBatches_aborts {b : Nat} {batches : List TBatch} {bt : TBatch}
    (hmem : bt ∈ batches)
    (hfat : ∃ e, (trainStep bt.alignerFails bt.n bt.w b bt.gLossNaN).2
      = Outcome.fatal e) :
    ∀ i, runAborted (runBatches b batches i) = true := by
  induction batches with
  | nil => cases hmem
  | cons hd tl ih =>
    intro i
    rcases List.mem_cons.mp hmem with rfl | htl
    · obtain ⟨e, he⟩ := hfat
      unfold runBatches
      rw [he]
      rfl
    · unfold runBatches
      rcases hout : (trainStep hd.alignerFails hd.n hd.w b hd.gLossNaN).2
        with _ | _ | e
      · exact ih htl (i + 1)
      · exact ih htl i
      · rfl

theorem f0Check_small_batch (n w b : Nat) (h2 : 2 ≤ n) (hlt : n < b) :
    ∃ e, f0RecLossCheck n w b = Except.error e := by
  by_cases hdiv : (n * w) % b = 0
  · refine ⟨FatalErr.lossShapes, ?_⟩
    have hb : 0 < b := by omega
    simp only [f0RecLossCheck, viewReshape, hb, hdiv, and_self, if_true]
    have hbn : b ≠ n := by omega
    have hb1 : b ≠ 1 := by omega
    have hn1 : n ≠ 1 := by omega
    simp [smoothL1Shape, broadcastDim, hbn, hb1, hn1]
  · refine ⟨FatalErr.viewSize, ?_⟩
    simp [f0RecLossCheck, viewReshape, hdiv]

/-- Claim C2: if the total generator loss is NaN, the step raises the
uncaught RuntimeError after g_loss.backward() but before any of the five
generator-side optimizer.step calls (the only optimizer.step events in the
trace are the discriminator ones, msd and mpd), and the run aborts with no
recovery path: any epoch containing such a batch ends in an error. -/
theorem nan_gloss_aborts_before_generator_steps (n w b : Nat) (s : Nat × Nat)
    (batches : List TBatch) (i : Nat) (bt : TBatch)
    (h : f0RecLossCheck n w b = Except.ok s)
    (hmem : bt ∈ batches) (haf : bt.alignerFails = false)
    (hnan : bt.gLossNaN = true)
    (hbt : f0RecLossCheck bt.n bt.w b = Except.ok s) :
    (trainStep false n w b true).2 = Outcome.fatal FatalErr.nanLoss
    ∧ (∀ m : ModuleKey, Ev.stepOpt m ∈ (trainStep false n w b true).1
        → m = ModuleKey.msd ∨ m = ModuleKey.mpd)
    ∧ runAborted (runBatches b batches i) = true := by
  have htr := trainStep_nan_eq n w b s h
  refine ⟨by rw [htr], ?_, ?_⟩
  · intro m hm
    rw [htr] at hm
    cases m <;> simp_all [discPhase]
  · refine runBatches_aborts hmem ⟨FatalErr.nanLoss, ?_⟩ i
    rw [haf, hnan, trainStep_nan_eq bt.n bt.w b s hbt]

theorem nan_gloss_aborts_before_generator_steps_witness :
    ((trainStep false 2 3 2 true).2 = Outcome.fatal FatalErr.nanLoss
    ∧ (∀ m : ModuleKey, Ev.stepOpt m ∈ (trainStep false 2 3 2 true).1
        → m = ModuleKey.msd ∨ m = ModuleKey.mpd)
    ∧ runAborted (runBatches 2 [⟨false, 2, 3, true⟩] 0) = true) :=
  nan_gloss_aborts_before_generator_steps 2 3 2 (2, 3)
    [⟨false, 2, 3, true⟩] 0 ⟨false, 2, 3, true⟩ rfl
    (List.mem_singleton.mpr rfl) rfl rfl rfl

/-- Claim C3: a batch whose text-aligner forward raises is skipped: its
trace is exactly one xm.mark_step (the graph is still committed, no
optimizer.step and no backward runs), its outcome is skipped so control
continues with the next batch, and over any epoch that finishes normally
the global step counter iters grows by exactly the number of completed
batches (one per completed batch, zero per skipped batch). -/
theorem aligner_failure_skips_batch_and_iters_count
    (n w b bEpoch : Nat) (nan : Bool) (batches : List TBatch)
    (i iFinal : Nat)
    (hrun : runBatches bEpoch batches i = Except.ok iFinal) :
    trainStep true n w b nan = ([Ev.markStep], Outcome.skipped)
    ∧ iFinal = i + batches.countP (stepCompleted bEpoch) := by
  refine ⟨rfl, ?_⟩
  induction batches generalizing i with
  | nil =>
    simp only [runBatches] at hrun
    injection hrun with h
    simp [h, List.countP_nil]
  | cons hd tl ih =>
    unfold runBatches at hrun
    rcases hout : (trainStep hd.alignerFails hd.n hd.w bEpoch hd.gLossNaN).2
      with _ | _ | e <;> rw [hout] at hrun
    · have hx := ih (i + 1) hrun
      have hp : stepCompleted bEpoch hd = true := by
        simp [stepCompleted, hout]
      rw [List.countP_cons, hp]
      simp
      omega
    · have hx := ih i hrun
      have hp : stepCompleted bEpoch hd = false := by
        simp [stepCompleted, hout]
      rw [List.countP_cons, hp]
      simp
      omega
    · cases hrun

theorem aligner_failure_skips_batch_and_iters_count_witness :
    trainStep true 0 0 0 false = ([Ev.markStep], Outcome.skipped)
    ∧ (1 : Nat)
        = 0 + ([⟨true, 1, 1, false⟩, ⟨false, 1, 1, false⟩] :
            List TBatch).countP (stepCompleted 1) :=
  aligner_failure_skips_batch_and_iters_count 0 0 0 1 false
    [⟨true, 1, 1, false⟩, ⟨false, 1, 1, false⟩] 0 1 rfl

/-- Claim C4: every batch that completes produces exactly this trace: the
discriminator phase first (zero_grad, d_loss backward, optimizer.step for
msd and mpd only, mark_step), then the generator phase (zero_grad, g_loss
backward, optimizer.step for exactly predictor, style_encoder, decoder,
text_encoder, text_aligner, then mark_step); each phase begins with a
global zero_grad and ends with a graph commit. -/
theorem two_phase_update_trace (af : Bool) (n w b : Nat) (nan : Bool)
    (evs : List Ev) (h : trainStep af n w b nan = (evs, Outcome.ok)) :
    evs = [Ev.zeroGrad, Ev.backward LossTag.dLoss,
      Ev.stepOpt ModuleKey.msd, Ev.stepOpt ModuleKey.mpd, Ev.markStep,
      Ev.zeroGrad, Ev.backward LossTag.gLoss,
      Ev.stepOpt ModuleKey.predictor, Ev.stepOpt ModuleKey.style_encoder,
      Ev.stepOpt ModuleKey.decoder, Ev.stepOpt ModuleKey.text_encoder,
      Ev.stepOpt ModuleKey.text_aligner, Ev.markStep] := by
  unfold trainStep at h
  split at h
  · simp at h
  · split at h
    · simp at h
    · split at h
      · simp at h
      · rw [Prod.mk.injEq] at h
        rw [← h.1]
        rfl

theorem two_phase_update_trace_witness :
    (trainStep false 1 1 1 false).1
      = [Ev.zeroGrad, Ev.backward LossTag.dLoss,
        Ev.stepOpt ModuleKey.msd, Ev.stepOpt ModuleKey.mpd, Ev.markStep,
        Ev.zeroGrad, Ev.backward LossTag.gLoss,
        Ev.stepOpt ModuleKey.predictor, Ev.stepOpt ModuleKey.style_encoder,
        Ev.stepOpt ModuleKey.decoder, Ev.stepOpt ModuleKey.text_encoder,
        Ev.stepOpt ModuleKey.text_aligner, Ev.markStep] :=
  two_phase_update_trace false 1 1 1 false (trainStep false 1 1 1 false).1
    rfl

/-- Claim C10 (amended): F0_real.view(batch_size, -1) uses the configured
batch_size, so a full batch (n = batch_size) passes the reshape with its
shape (n, w) preserved; a batch with fewer but at least two examples makes
the step raise outside the aligner try/except (either the view rejects the
element count or smooth_l1_loss rejects the non-broadcastable shapes), with
outcome fatal rather than skipped, and any epoch containing such a batch
aborts the run. -/
theorem partial_batch_f0_view_aborts (n w b : Nat) (nan : Bool)
    (batches : List TBatch) (i : Nat) (bt : TBatch)
    (hfull : 1 ≤ b) (h2 : 2 ≤ n) (hlt : n < b)
    (hmem : bt ∈ batches) (haf : bt.alignerFails = false)
    (hbt2 : 2 ≤ bt.n) (hbtlt : bt.n < b) :
    f0RecLossCheck b w b = Except.ok (b, w)
    ∧ (∃ e, (trainStep false n w b nan).2 = Outcome.fatal e)
    ∧ (trainStep false n w b nan).2 ≠ Outcome.skipped
    ∧ runAborted (runBatches b batches i) = true := by
  obtain ⟨e, he⟩ := f0Check_small_batch n w b h2 hlt
  have hfatal : (trainStep false n w b nan).2 = Outcome.fatal e := by
    simp [trainStep, he]
  refine ⟨?_, ⟨e, hfatal⟩, ?_, ?_⟩
  · have hb : 0 < b := hfull
    have hmod : (b * w) % b = 0 := Nat.mul_mod_right b w
    have hdivv : b * w / b = w := Nat.mul_div_cancel_left w hb
    simp [f0RecLossCheck, viewReshape, hb, hmod, hdivv, smoothL1Shape,
      broadcastDim]
  · rw [hfatal]
    intro hcon
    cases hcon
  · obtain ⟨e2, he2⟩ := f0Check_small_batch bt.n bt.w b hbt2 hbtlt
    refine runBatches_aborts hmem ⟨e2, ?_⟩ i
    rw [haf]
    simp [trainStep, he2]

theorem partial_batch_f0_view_aborts_witness :
    f0RecLossCheck 4 5 4 = Except.ok (4, 5)
    ∧ (∃ e, (trainStep false 2 5 4 false).2 = Outcome.fatal e)
    ∧ (trainStep false 2 5 4 false).2 ≠ Outcome.skipped
    ∧ runAborted (runBatches 4 [⟨false, 2, 5, false⟩] 0) = true :=
  partial_batch_f0_view_aborts 2 5 4 false [⟨false, 2, 5, false⟩] 0
    ⟨false, 2, 5, false⟩ (by decide) (by decide) (by decide)
    (List.mem_singleton.mpr rfl) rfl (by decide) (by decide)

/-- Claim C10 counterexample: the claim as frozen says that every batch
with fewer than batch_size examples makes the step raise. A single-example
batch whose F0 window has exactly batch_size frames does not: the view
succeeds (2 elements reshaped to (2, 1)) and smooth_l1_loss broadcasts
(2, 1) against (1, 2), so the step completes and the epoch ends normally. -/
theorem partial_batch_single_example_counterexample :
    (trainStep false 1 2 2 false).2 = Outcome.ok
    ∧ runBatches 2 [⟨false, 1, 2, false⟩] 0 = Except.ok 1 :=
  ⟨rfl, rfl⟩

theorem zip_replicate_div_sum (c : Nat) :
    ∀ sums : List ℚ,
      ((sums.zip (List.replicate sums.length c)).map
        (fun p => p.1 / (p.2 : ℚ))).sum = sums.sum / (c : ℚ) := by
  intro sums
  induction sums with
  | nil => simp
  | cons s rest ih =>
    simp only [List.length_cons, List.replicate_succ, List.zip_cons_cons,
      List.map_cons, List.sum_cons, List.sum_cons, ih]
    rw [add_div]

/-- Claim C5 counterexample: with per-worker sums (2, 3) and per-worker
batch counts (1, 3), the code reports ((2 + 3) / 2) / max(1, 1) = 5/2 on a
master whose local count is 1, while the claimed average of per-worker
averages is (2/1 + 3/3) / 2 = 3/2. -/
theorem val_reduction_claim_counterexample :
    masterReported [(2 : ℚ), 3] 1 ≠ avgOfWorkerAvgs [(2 : ℚ), 3] [1, 3] := by
  norm_num [masterReported, meshReduceAvg, avgOfWorkerAvgs]

/-- Claim C5 (amended): the mesh reduction averages the per-worker SUMS
(every worker observes the same reduced scalar), and the master divides
that by its own local batch count: reported =
((1/n) * sum of s_i) / max(c_master, 1). This equals the claimed average
of the per-worker averages exactly in the case where every worker
processed the same number c of batches. -/
theorem val_reduction_master_report_equal_counts (sums : List ℚ) (c : Nat)
    (hc : 1 ≤ c) :
    masterReported sums c
      = avgOfWorkerAvgs sums (List.replicate sums.length c) := by
  unfold masterReported avgOfWorkerAvgs meshReduceAvg
  rw [zip_replicate_div_sum]
  have hmax : max c 1 = c := max_eq_left hc
  rw [hmax, div_right_comm]

theorem val_reduction_master_report_equal_counts_witness :
    masterReported [(2 : ℚ), 4] 2
      = avgOfWorkerAvgs [(2 : ℚ), 4]
          (List.replicate ([(2 : ℚ), 4]).length 2) :=
  val_reduction_master_report_equal_counts [(2 : ℚ), 4] 2 (by decide)

/-- Claim C6 counterexample: the per-example losses are NOT normalized by
the valid text length L. With the elementwise BCE term constant 1, valid
length L = 4 and frame width W = 2, the code's mean divides the summed 8
terms by L * W = 8 (giving 1) while the claimed normalization divides by
L = 4 (giving 2); with sigmoid abstracted as the identity, zero logits and
a target of 1 at position 0 only, the code's duration loss is the mean over
interior positions 1..2 (giving 0) while the claimed normalization over the
valid length gives 1/4. -/
theorem ce_loss_normalization_counterexample :
    ceLossEx (fun _ _ => 1) (fun _ _ => 0) (fun _ => 0) 4 2
      ≠ ceLossSpec (fun _ _ => 1) (fun _ _ => 0) (fun _ => 0) 4 2
    ∧ durLossEx (fun x => x) (fun _ _ => 0)
        (fun i => if i = 0 then 1 else 0) 4 1
      ≠ durLossSpec (fun x => x) (fun _ _ => 0)
          (fun i => if i = 0 then 1 else 0) 4 1 := by
  constructor
  · norm_num [ceLossEx, ceLossSpec, Finset.sum_range_succ]
  · norm_num [durLossEx, durLossSpec, durPredAt, Finset.sum_range_succ,
      Finset.sum_Ico_eq_sum_range]

/-- Claim C6 (amended): per example the logit rows and targets are sliced
(masked) to the valid text length L, so neither loss depends on entries at
or beyond row L (nor beyond column W); the alignment BCE is the mean over
all L * W sliced logits, i.e. normalized by L * W, and the L1 duration loss
is restricted to the interior positions 1..L-2 of the valid range and
normalized by L - 2 — not by the valid length L itself. -/
theorem dur_ce_loss_masked_normalization (sigma : ℚ → ℚ)
    (phi : ℚ → ℚ → ℚ) (pred predB : Nat → Nat → ℚ) (tIn tInB : Nat → Nat)
    (L W : Nat) (hL : 2 ≤ L)
    (hpred : ∀ i, i < L → ∀ j, j < W → pred i j = predB i j)
    (htIn : ∀ i, i < L → tIn i = tInB i) :
    durLossEx sigma pred tIn L W = durLossEx sigma predB tInB L W
    ∧ ceLossEx phi pred tIn L W = ceLossEx phi predB tInB L W
    ∧ durLossEx sigma pred tIn L W
        = (∑ i ∈ Finset.Ico 1 (L - 1),
            |durPredAt sigma pred W i - (tIn i : ℚ)|) / ((L : ℚ) - 2)
    ∧ ceLossEx phi pred tIn L W
        = (∑ i ∈ Finset.range L, ∑ j ∈ Finset.range W,
            phi (pred i j) (s2sTrg tIn i j)) / ((L : ℚ) * (W : ℚ)) := by
  have hsum : ∀ i, i < L →
      durPredAt sigma pred W i = durPredAt sigma predB W i := by
    intro i hi
    unfold durPredAt
    exact Finset.sum_congr rfl
      (fun j hj => by rw [hpred i hi j (Finset.mem_range.mp hj)])
  refine ⟨?_, ?_, ?_, ?_⟩
  · unfold durLossEx
    congr 1
    refine Finset.sum_congr rfl ?_
    intro i hi
    have hiL : i < L := by
      have := Finset.mem_Ico.mp hi
      omega
    rw [hsum i hiL, htIn i hiL]
  · unfold ceLossEx
    congr 1
    refine Finset.sum_congr rfl ?_
    intro i hi
    refine Finset.sum_congr rfl ?_
    intro j hj
    rw [hpred i (Finset.mem_range.mp hi) j (Finset.mem_range.mp hj)]
    unfold s2sTrg
    rw [htIn i (Finset.mem_range.mp hi)]
  · unfold durLossEx
    congr 1
    rw [Nat.card_Ico]
    have : ((L - 1 - 1 : Nat) : ℚ) = (L : ℚ) - 2 := by
      have h1 : L - 1 - 1 = L - 2 := by omega
      rw [h1]
      push_cast [hL]
      ring
    exact this
  · unfold ceLossEx
    congr 1
    push_cast
    ring

theorem dur_ce_loss_masked_normalization_witness :
    (durLossEx (fun x => x) (fun _ _ => 0) (fun _ => 1) 3 1
        = durLossEx (fun x => x) (fun i _j => if 3 ≤ i then 5 else 0)
            (fun i => if 3 ≤ i then 7 else 1) 3 1
      ∧ ceLossEx (fun _ t => t) (fun _ _ => 0) (fun _ => 1) 3 1
        = ceLossEx (fun _ t => t) (fun i _j => if 3 ≤ i then 5 else 0)
            (fun i => if 3 ≤ i then 7 else 1) 3 1
      ∧ durLossEx (fun x => x) (fun _ _ => 0) (fun _ => 1) 3 1
        = (∑ i ∈ Finset.Ico 1 (3 - 1),
            |durPredAt (fun x => x) (fun _ _ => 0) 1 i
              - ((fun _ => (1 : Nat)) i : ℚ)|) / ((3 : ℚ) - 2)
      ∧ ceLossEx (fun _ t => t) (fun _ _ => 0) (fun _ => 1) 3 1
        = (∑ i ∈ Finset.range 3, ∑ j ∈ Finset.range 1,
            (fun (_ : ℚ) (t : ℚ) => t) ((fun _ _ => (0 : ℚ)) i j)
              (s2sTrg (fun _ => 1) i j)) / ((3 : ℚ) * (1 : ℚ))) :=
  dur_ce_loss_masked_normalization (fun x => x) (fun _ t => t)
    (fun _ _ => 0) (fun i _j => if 3 ≤ i then 5 else 0)
    (fun _ => 1) (fun i => if 3 ≤ i then 7 else 1) 3 1 (by decide)
    (by intro i hi j hj
        show (0 : ℚ) = if 3 ≤ i then 5 else 0
        rw [if_neg (by omega)])
    (by intro i hi
        show (1 : Nat) = if 3 ≤ i then 7 else 1
        rw [if_neg (by omega)])

/-- Claim C7: if the pretrained_model config entry is absent or the empty
string, startup never reaches the training loop and ends in an error;
when the vocabulary is readable the error is exactly the uncaught
Exception raised by the else-branch at line 191 (Must have a pretrained!),
so no from-scratch path exists. -/
theorem missing_pretrained_fatal_before_train_loop (c : Config)
    (h : c.pretrained_model = none ∨ c.pretrained_model = some "") :
    SetupEv.enteredTrainLoop ∉ (setup c).1
    ∧ (∃ e, (setup c).2 = Except.error e)
    ∧ (∀ syms, getSymbols c = Except.ok syms
        → (setup c).2 = Except.error SetupErr.mustPretrain) := by
  have hflag : load_pretrained c = false := by
    rcases h with h | h <;> simp [load_pretrained, h]
  unfold setup
  rcases hsy : getSymbols c with k | syms
  · refine ⟨by simp, ⟨SetupErr.configExit 1 k, rfl⟩, ?_⟩
    intro syms hok
    cases hok
  · rw [hflag]
    refine ⟨by simp, ⟨SetupErr.mustPretrain, rfl⟩, fun _ _ => rfl⟩

theorem missing_pretrained_fatal_before_train_loop_witness :
    SetupEv.enteredTrainLoop
        ∉ (setup ⟨some ⟨some [], some [], some [], some [], some []⟩,
            none⟩).1
    ∧ (∃ e, (setup ⟨some ⟨some [], some [], some [], some [], some []⟩,
        none⟩).2 = Except.error e)
    ∧ (∀ syms,
        getSymbols ⟨some ⟨some [], some [], some [], some [], some []⟩,
          none⟩ = Except.ok syms
        → (setup ⟨some ⟨some [], some [], some [], some [], some []⟩,
            none⟩).2 = Except.error SetupErr.mustPretrain) :=
  missing_pretrained_fatal_before_train_loop
    ⟨some ⟨some [], some [], some [], some [], some []⟩, none⟩ (Or.inl rfl)

/-- Claim C8: a config missing the symbol block or any of its required
sub-keys makes startup end in SystemExit with the non-zero code 1 and an
error naming a key that is genuinely missing from the config, with an
empty milestone trace: no dataloader is built and no model is constructed. -/
theorem missing_symbol_key_aborts_setup (c : Config)
    (hmiss : ∃ k, missingField c k) :
    ∃ k, setup c = ([], Except.error (SetupErr.configExit 1 k))
      ∧ missingField c k
      ∧ (1 : Nat) ≠ 0
      ∧ SetupEv.builtTrainLoader ∉ (setup c).1
      ∧ SetupEv.builtValLoader ∉ (setup c).1
      ∧ SetupEv.builtModel ∉ (setup c).1 := by
  rcases hsym : c.symbol with _ | sb
  · refine ⟨SymKey.symbol, ?_, hsym, by decide, ?_, ?_, ?_⟩ <;>
      simp [setup, getSymbols, hsym, missingField]
  · rcases hpad : sb.pad with _ | padChars
    · refine ⟨SymKey.pad, ?_, ⟨sb, hsym, hpad⟩, by decide, ?_, ?_, ?_⟩ <;>
        simp [setup, getSymbols, hsym, hpad, missingField]
    · rcases hpunc : sb.punctuation with _ | puncChars
      · refine ⟨SymKey.punctuation, ?_, ⟨sb, hsym, hpunc⟩, by decide,
          ?_, ?_, ?_⟩ <;>
          simp [setup, getSymbols, hsym, hpad, hpunc, missingField]
      · rcases hlet : sb.letters with _ | letterChars
        · refine ⟨SymKey.letters, ?_, ⟨sb, hsym, hlet⟩, by decide,
            ?_, ?_, ?_⟩ <;>
            simp [setup, getSymbols, hsym, hpad, hpunc, hlet, missingField]
        · rcases hipa : sb.letters_ipa with _ | ipaChars
          · refine ⟨SymKey.letters_ipa, ?_, ⟨sb, hsym, hipa⟩, by decide,
              ?_, ?_, ?_⟩ <;>
              simp [setup, getSymbols, hsym, hpad, hpunc, hlet, hipa,
                missingField]
          · rcases hext : sb.extend with _ | extendChars
            · refine ⟨SymKey.extend, ?_, ⟨sb, hsym, hext⟩, by decide,
                ?_, ?_, ?_⟩ <;>
                simp [setup, getSymbols, hsym, hpad, hpunc, hlet, hipa,
                  hext, missingField]
            · exfalso
              obtain ⟨k, hk⟩ := hmiss
              cases k <;> simp_all [missingField]

theorem missing_symbol_key_aborts_setup_witness :
    ∃ k, setup ⟨some ⟨some [], some [], none, some [], some []⟩, none⟩
        = ([], Except.error (SetupErr.configExit 1 k))
      ∧ missingField ⟨some ⟨some [], some [], none, some [], some []⟩,
          none⟩ k
      ∧ (1 : Nat) ≠ 0
      ∧ SetupEv.builtTrainLoader
          ∉ (setup ⟨some ⟨some [], some [], none, some [], some []⟩,
              none⟩).1
      ∧ SetupEv.builtValLoader
          ∉ (setup ⟨some ⟨some [], some [], none, some [], some []⟩,
              none⟩).1
      ∧ SetupEv.builtModel
          ∉ (setup ⟨some ⟨some [], some [], none, some [], some []⟩,
              none⟩).1 :=
  missing_symbol_key_aborts_setup
    ⟨some ⟨some [], some [], none, some [], some []⟩, none⟩
    ⟨SymKey.letters, ⟨some [], some [], none, some [], some []⟩, rfl, rfl⟩

/-- Claim C9: in a training step the encoder output is multiplied by the
soft attention matrix when the per-batch random bit is set and by the
monotonic hard path otherwise; the bit random.getrandbits(1) is fair
(each of the two values is produced by exactly one of the two equally
likely seed residues); and the validation loop always computes the
monotonic product, coinciding with the bit-unset training branch. -/
theorem asr_soft_mono_selection (t_en soft mono : Nat → Nat → ℚ)
    (k : Nat) :
    trainAsr (getrandbits1 1) t_en soft mono k = matMulQ t_en soft k
    ∧ trainAsr (getrandbits1 0) t_en soft mono k = matMulQ t_en mono k
    ∧ valAsr t_en mono k = trainAsr false t_en soft mono k
    ∧ ((Finset.range 2).filter (fun z => getrandbits1 z = true)).card = 1
    ∧ ((Finset.range 2).filter (fun z => getrandbits1 z = false)).card = 1 :=
  ⟨rfl, rfl, rfl, by decide, by decide⟩

end StyleTTS2
